import Mathlib

/-!
Shallow embedding of `schedulebot` (files `schedulebot/schedule.py` and
`schedulebot/parser.py`).

Calendar dates are represented by their proleptic-Gregorian ordinal
(days counted from 0001-01-01 = ordinal 1), exactly as CPython's
`datetime.date.toordinal`; the helper functions below are direct
translations of the pure-Python reference implementation of the
`datetime` module (`_ymd2ord`, `_ord2ymd`, `date.weekday`,
`date.isocalendar`), which `schedule.py` calls.  Integer `/` and `%`
on `Int` agree with Python's floor division/modulo on every divisor
used here (all divisors are positive).

`datetime.datetime` values produced by the code always have second and
microsecond zero, so they are represented by their total number of
minutes (`ordinal * 1440 + hour * 60 + minute`); adding
`timedelta(minutes=90)` is adding `90`.
-/

/-- Python `datetime._is_leap(year)`. -/
def isLeap (y : Int) : Bool :=
  y % 4 == 0 && (y % 100 != 0 || y % 400 == 0)

/-- Python `datetime._DAYS_IN_MONTH[m]` (1-indexed month). -/
def DAYS_IN_MONTH (m : Int) : Int :=
  ([31, 28, 31, 30, 31, 30, 31, 31, 30, 31, 30, 31].getD (m - 1).toNat 0 : Int)

/-- Python `datetime._DAYS_BEFORE_MONTH[m]` (1-indexed month). -/
def DAYS_BEFORE_MONTH (m : Int) : Int :=
  ([0, 31, 59, 90, 120, 151, 181, 212, 243, 273, 304, 334].getD (m - 1).toNat 0 : Int)

/-- Python `datetime._days_before_year(year)`. -/
def daysBeforeYear (y : Int) : Int :=
  (y - 1) * 365 + (y - 1) / 4 - (y - 1) / 100 + (y - 1) / 400

/-- Python `datetime._days_before_month(year, month)`. -/
def daysBeforeMonth (y m : Int) : Int :=
  DAYS_BEFORE_MONTH m + (if m > 2 && isLeap y then 1 else 0)

/-- Python `datetime._ymd2ord(year, month, day)`: proleptic Gregorian
ordinal of the date, with 0001-01-01 having ordinal 1. -/
def ymd2ord (y m d : Int) : Int :=
  daysBeforeYear y + daysBeforeMonth y m + d

/-- Python `datetime._ord2ymd(n)`: year, month, day from an ordinal. -/
def ord2ymd (n0 : Int) : Int × Int × Int :=
  let n := n0 - 1
  let n400 := n / 146097
  let n := n % 146097
  let year := n400 * 400 + 1
  let n100 := n / 36524
  let n := n % 36524
  let n4 := n / 1461
  let n := n % 1461
  let n1 := n / 365
  let n := n % 365
  let year := year + n100 * 100 + n4 * 4 + n1
  if n1 == 4 || n100 == 4 then
    (year - 1, 12, 31)
  else
    let leapyear := n1 == 3 && (n4 != 24 || n100 == 3)
    let month := (n + 50) / 32
    let preceding := DAYS_BEFORE_MONTH month + (if month > 2 && leapyear then 1 else 0)
    if preceding > n then
      let month := month - 1
      let preceding := preceding - (DAYS_IN_MONTH month + (if month == 2 && leapyear then 1 else 0))
      (year, month, n - preceding + 1)
    else
      (year, month, n - preceding + 1)

/-- Python `date.weekday()` on an ordinal: Monday = 0 .. Sunday = 6. -/
def pyWeekday (ord : Int) : Int :=
  (ord + 6) % 7

/-- Python `datetime._isoweek1monday(year)`: ordinal of the Monday
starting ISO week 1 of `year`. -/
def isoweek1monday (year : Int) : Int :=
  let firstday := ymd2ord year 1 1
  let firstweekday := (firstday + 6) % 7
  let week1monday := firstday - firstweekday
  if firstweekday > 3 then week1monday + 7 else week1monday

/-- Python `date.isocalendar()` on an ordinal: (ISO year, ISO week
number, ISO weekday). -/
def isocalendar (ord : Int) : Int × Int × Int :=
  let year := (ord2ymd ord).1
  let week1monday := isoweek1monday year
  let week := (ord - week1monday) / 7
  let day := (ord - week1monday) % 7
  if week < 0 then
    let year := year - 1
    let week1monday := isoweek1monday year
    let week := (ord - week1monday) / 7
    let day := (ord - week1monday) % 7
    (year, week + 1, day + 1)
  else if week ≥ 52 && ord ≥ isoweek1monday (year + 1) then
    (year + 1, 1, day + 1)
  else
    (year, week + 1, day + 1)

/-- `schedule.WeekParity` (`'odd'` / `'even'`). -/
inductive WeekParity
  | ODD
  | EVEN
deriving DecidableEq

/-- Python `datetime.time(hour, minute)` as used by the templates
(seconds and microseconds are always zero). -/
structure PyTime where
  hour : Int
  minute : Int
deriving DecidableEq

/-- Python `datetime.combine(date, time)`, at minute granularity:
total minutes since the day before ordinal 0. -/
def datetimeCombine (d : Int) (t : PyTime) : Int :=
  d * 1440 + t.hour * 60 + t.minute

/-- `schedule.ScheduleTemplateItem`.  `dates` holds date ordinals. -/
structure ScheduleTemplateItem where
  slot : Int
  name : String
  weekday : Int
  start : PyTime
  groups : List String
  week_parity : Option WeekParity := none
  dates : Option (List Int) := none
deriving DecidableEq

/-- `schedule.ScheduleItem` (field `end` is `end_`, `end` being a Lean
keyword).  `start` / `end_` are datetimes in minutes. -/
structure ScheduleItem where
  slot : Int
  name : String
  start : Int
  end_ : Int
deriving DecidableEq

/-- `ScheduleItem.duration` property. -/
def ScheduleItem.duration (si : ScheduleItem) : Int :=
  si.end_ - si.start

/-- `schedule.ScheduleBook`: the master template list and the derived
group index.  The Python `dict` (insertion-ordered, unique keys) is an
association list. -/
structure ScheduleBook where
  templates : List ScheduleTemplateItem
  group_index : List (String × List ScheduleTemplateItem)

/-- `ScheduleBook.__init__`. -/
def emptyBook : ScheduleBook :=
  { templates := [], group_index := [] }

/-- Python dict lookup `idx[q]` guarded by `q in idx`. -/
def idxFind (idx : List (String × List ScheduleTemplateItem)) (q : String) :
    Option (List ScheduleTemplateItem) :=
  match idx with
  | [] => none
  | (k, l) :: rest => if k = q then some l else idxFind rest q

/-- One step of the index construction: `if group not in index:
index[group] = []` followed by `index[group].append(item)`.  An
existing key keeps its place; a new key is appended at the end. -/
def indexAdd (idx : List (String × List ScheduleTemplateItem)) (g : String)
    (it : ScheduleTemplateItem) : List (String × List ScheduleTemplateItem) :=
  match idx with
  | [] => [(g, [it])]
  | (k, l) :: rest =>
      if k = g then (k, l ++ [it]) :: rest else (k, l) :: indexAdd rest g it

/-- The inner loop of `add_template`: `for group in item.groups: ...`. -/
def addItemGroups (idx : List (String × List ScheduleTemplateItem))
    (it : ScheduleTemplateItem) : List (String × List ScheduleTemplateItem) :=
  it.groups.foldl (fun i g => indexAdd i g it) idx

/-- The outer loop of `add_template`: `for item in template: ...`. -/
def buildIndex (idx : List (String × List ScheduleTemplateItem))
    (template : List ScheduleTemplateItem) : List (String × List ScheduleTemplateItem) :=
  template.foldl (fun i it => addItemGroups i it) idx

/-- `ScheduleBook.add_template`. -/
def add_template (book : ScheduleBook) (template : List ScheduleTemplateItem) :
    ScheduleBook :=
  { templates := book.templates ++ template,
    group_index := buildIndex book.group_index template }

/-- `str.lower` restricted to the alphabets that occur in this
repository's data (ASCII and Ukrainian Cyrillic). -/
def pyLowerChar (c : Char) : Char :=
  if 'A' ≤ c ∧ c ≤ 'Z' then Char.ofNat (c.toNat + 32)
  else if 'А' ≤ c ∧ c ≤ 'Я' then Char.ofNat (c.toNat + 32)
  else if c = 'Ё' then 'ё'
  else if c = 'І' then 'і'
  else if c = 'Ї' then 'ї'
  else if c = 'Є' then 'є'
  else if c = 'Ґ' then 'ґ'
  else c

def pyLower (s : String) : String :=
  String.mk (s.toList.map pyLowerChar)

/-- Literal character-by-character match of the (escaped, hence
literal) pattern at the current position, as the regex engine does. -/
def matchAt : List Char → List Char → Bool
  | [], _ => true
  | _ :: _, [] => false
  | p :: ps, c :: cs => p == c && matchAt ps cs

/-- `re.compile(re.escape(pattern), re.IGNORECASE).search(s)`:
`re.escape` makes every character literal, `search` tries every start
position, `IGNORECASE` folds case on both sides. -/
def regexSearchCI (pat s : String) : Bool :=
  let pl := (pyLower pat).toList
  let sl := (pyLower s).toList
  (List.range (sl.length + 1)).any (fun i => matchAt pl (sl.drop i))

/-- `ScheduleBook.find_groups`: filters the index keys (dict iteration
order = insertion order) by the case-insensitive literal search. -/
def find_groups (book : ScheduleBook) (pattern : String) : List String :=
  (book.group_index.map Prod.fst).filter (fun g => regexSearchCI pattern g)

/-- The week parity computed for `current_date` inside
`calculate_schedule`: `ODD if isocalendar()[1] % 2 != 0 else EVEN`. -/
def weekParityOf (d : Int) : WeekParity :=
  if (isocalendar d).2.1 % 2 ≠ 0 then WeekParity.ODD else WeekParity.EVEN

/-- The item test inside `calculate_schedule`'s day loop:
`item.weekday == weekday and (item.week_parity is None or
item.week_parity == week_parity)`, then the guard
`if item.dates and current_date not in item.dates: continue`
(note: an empty `dates` list is falsy). -/
def itemMatches (it : ScheduleTemplateItem) (d : Int) : Bool :=
  if it.weekday == pyWeekday d
      && (it.week_parity.isNone || it.week_parity == some (weekParityOf d)) then
    match it.dates with
    | some ds => !(!ds.isEmpty && !ds.contains d)
    | none => true
  else
    false

/-- The `ScheduleItem` built for a matching item on day `d`:
`start = datetime.combine(current_date, item.start)`,
`end = start + timedelta(minutes=90)`. -/
def mkScheduleItem (it : ScheduleTemplateItem) (d : Int) : ScheduleItem :=
  { slot := it.slot, name := it.name,
    start := datetimeCombine d it.start,
    end_ := datetimeCombine d it.start + 90 }

/-- The occurrences appended for one day: the inner `for item in
self._group_index[group]` loop. -/
def dayOccs (items : List ScheduleTemplateItem) (d : Int) : List ScheduleItem :=
  (items.filter (fun it => itemMatches it d)).map (fun it => mkScheduleItem it d)

/-- The `while current_date <= end` loop.  The loop runs exactly
`(end + 1 - start)` times (zero when `start > end`); the `Nat` fuel
argument is instantiated with that count in `calculate_schedule` so
that the recursion is structural. -/
def calcLoop (items : List ScheduleTemplateItem) :
    Nat → Int → Int → List ScheduleItem
  | 0, _, _ => []
  | n + 1, current, stop =>
      if current ≤ stop then
        dayOccs items current ++ calcLoop items n (current + 1) stop
      else []

/-- `ScheduleBook.calculate_schedule(group, start, end)` (dates as
ordinals). -/
def calculate_schedule (book : ScheduleBook) (group : String) (start stop : Int) :
    List ScheduleItem :=
  match idxFind book.group_index group with
  | none => []
  | some items => calcLoop items (stop + 1 - start).toNat start stop

/-- `schedule.DateRangeRequest`. -/
inductive DateRangeRequest
  | TODAY
  | YESTERDAY
  | TOMORROW
  | CURRENT_WEEK
  | LAST_WEEK
  | NEXT_WEEK
deriving DecidableEq

/-- `schedule.get_date_range(request, today)` for the six members of
the closed enumeration (the `today or date.today()` default is an
external effect; the anchor is always passed explicitly here). -/
def get_date_range (request : DateRangeRequest) (today : Int) : Int × Int :=
  match request with
  | .TODAY => (today, today)
  | .YESTERDAY => (today - 1, today - 1)
  | .TOMORROW => (today + 1, today + 1)
  | .CURRENT_WEEK =>
      let start_of_week := today - pyWeekday today
      (start_of_week, start_of_week + 6)
  | .LAST_WEEK =>
      let start_of_last_week := today - (pyWeekday today + 7)
      (start_of_last_week, start_of_last_week + 6)
  | .NEXT_WEEK =>
      let start_of_next_week := today - (pyWeekday today - 7)
      (start_of_next_week, start_of_next_week + 6)

/-- `get_date_range` as called dynamically: the argument may be any
runtime value; `none` stands for every value outside the enumeration,
which matches none of the `if request == DateRangeRequest...` arms and
reaches `raise ValueError(...)`. -/
def get_date_range_any (request : Option DateRangeRequest) (today : Int) :
    Except String (Int × Int) :=
  if request = some .TODAY then .ok (today, today)
  else if request = some .YESTERDAY then .ok (today - 1, today - 1)
  else if request = some .TOMORROW then .ok (today + 1, today + 1)
  else if request = some .CURRENT_WEEK then
    let start_of_week := today - pyWeekday today
    .ok (start_of_week, start_of_week + 6)
  else if request = some .LAST_WEEK then
    let start_of_last_week := today - (pyWeekday today + 7)
    .ok (start_of_last_week, start_of_last_week + 6)
  else if request = some .NEXT_WEEK then
    let start_of_next_week := today - (pyWeekday today - 7)
    .ok (start_of_next_week, start_of_next_week + 6)
  else .error "Unknown schedule request"

/-- A Python value as received by `parser.parse_weekday(value)`:
a `str`, an `int`, or anything else. -/
inductive PyVal
  | str (s : String)
  | int (n : Int)
  | other

/-- The normalisation applied to a string argument of `parse_weekday`:
`value.lower().split(' ')[0].replace("'", '').replace('"', '')`.
`split(' ')[0]` is the longest space-free prefix; replacing a
one-character substring by the empty string deletes every occurrence
of that character. -/
def normalizeWeekday (s : String) : String :=
  String.mk ((((pyLower s).toList.takeWhile (fun c => c != ' ')).filter
    (fun c => c != '\'')).filter (fun c => c != '"'))

/-- The weekday-name dictionary inside `parse_weekday`. -/
def UA_WEEKDAYS : List (String × Int) :=
  [("понеділок", 0), ("вівторок", 1), ("середа", 2), ("четвер", 3),
   ("пятниця", 4), ("субота", 5), ("неділя", 6)]

/-- `dict.get(value, 0)` on the weekday dictionary. -/
def weekdayByName (s : String) : Int :=
  ((UA_WEEKDAYS.find? (fun p => p.1 == s)).map Prod.snd).getD 0

/-- `parser.parse_weekday`: `TypeError` is the `Except.error` case. -/
def parse_weekday : PyVal → Except String Int
  | .str s => .ok (weekdayByName (normalizeWeekday s))
  | .int n => .ok (n % 7)
  | .other => .error "unsupported weekday"

deriving instance DecidableEq for Except

/-!
Specification-side definitions.  `specMatchesB` is written from the
spec's words ("the item contributes an occurrence on `d` iff ALL of:
`item.weekday == d.weekday()`; `item.week_parity is None OR
item.week_parity == parity(d)`; `item.dates is None OR d in
item.dates`") for comparison with the source-derived `itemMatches`;
`rangeDays` is the list of days of the inclusive interval, written
independently of the resolution loop.
-/

/-- The three conditions of the spec, verbatim. -/
def specMatchesB (it : ScheduleTemplateItem) (d : Int) : Bool :=
  (it.weekday == pyWeekday d)
    && (it.week_parity.isNone || it.week_parity == some (weekParityOf d))
    && (match it.dates with
        | none => true
        | some ds => ds.contains d)

/-- The days of the inclusive interval `[s, e]`, in ascending order. -/
def rangeDays (s e : Int) : List Int :=
  (List.range (e + 1 - s).toNat).map (fun (i : Nat) => s + (i : Int))

/-- An item whose `dates` is the empty list, rewritten to have no
`dates` at all (used to state that the two are indistinguishable). -/
def clearEmptyDates (it : ScheduleTemplateItem) : ScheduleTemplateItem :=
  if it.dates = some [] then { it with dates := none } else it

/-- A book with every stored item transformed by `f` (both the master
list and each index bucket). -/
def mapBookItems (f : ScheduleTemplateItem → ScheduleTemplateItem)
    (book : ScheduleBook) : ScheduleBook :=
  { templates := book.templates.map f,
    group_index := book.group_index.map (fun kv => (kv.1, kv.2.map f)) }

/-! Concrete fixtures (the template of `tests/test_schedule.py`). -/

def tMath : ScheduleTemplateItem :=
  { slot := 1, name := "Math", weekday := 0, start := ⟨9, 0⟩,
    groups := ["GroupA", "GroupB"], week_parity := some .ODD, dates := none }

def tPhysics : ScheduleTemplateItem :=
  { slot := 2, name := "Physics", weekday := 2, start := ⟨11, 0⟩,
    groups := ["GroupA"], week_parity := some .EVEN, dates := none }

def tChemistry : ScheduleTemplateItem :=
  { slot := 3, name := "Chemistry", weekday := 4, start := ⟨14, 0⟩,
    groups := ["GroupB"], week_parity := none, dates := none }

def bookT : ScheduleBook :=
  add_template emptyBook [tMath, tPhysics, tChemistry]

/-- Two same-day items whose load order disagrees with both slot order
and start-time order: loaded first, `slot 2` at 10:00 ... -/
def tLate : ScheduleTemplateItem :=
  { slot := 2, name := "Late", weekday := 0, start := ⟨10, 0⟩,
    groups := ["G"], week_parity := none, dates := none }

/-- ... loaded second, `slot 1` at 9:00. -/
def tEarly : ScheduleTemplateItem :=
  { slot := 1, name := "Early", weekday := 0, start := ⟨9, 0⟩,
    groups := ["G"], week_parity := none, dates := none }

def bookC6 : ScheduleBook :=
  add_template emptyBook [tLate, tEarly]

/-! Helper lemmas. -/

theorem rangeDays_nil {s e : Int} (h : e < s) : rangeDays s e = [] := by
  unfold rangeDays
  have h0 : (e + 1 - s).toNat = 0 := by omega
  rw [h0]
  rfl

theorem rangeDays_cons {s e : Int} (h : s ≤ e) :
    rangeDays s e = s :: rangeDays (s + 1) e := by
  unfold rangeDays
  have h1 : (e + 1 - s).toNat = (e + 1 - (s + 1)).toNat + 1 := by omega
  rw [h1, List.range_succ_eq_map]
  simp only [List.map_cons, List.map_map, Function.comp_def]
  refine congrArg₂ _ (by omega) (List.map_congr_left fun a _ => by push_cast; omega)

theorem mem_rangeDays {s e d : Int} : d ∈ rangeDays s e ↔ s ≤ d ∧ d ≤ e := by
  unfold rangeDays
  simp only [List.mem_map, List.mem_range]
  constructor
  · rintro ⟨i, hi, rfl⟩
    omega
  · rintro ⟨h1, h2⟩
    exact ⟨(d - s).toNat, by omega, by omega⟩

theorem pairwise_lt_rangeDays (s e : Int) :
    (rangeDays s e).Pairwise (· < ·) := by
  unfold rangeDays
  exact (List.pairwise_lt_range _).map _ (fun a b h => by omega)

theorem calcLoop_eq_flatMap (items : List ScheduleTemplateItem) :
    ∀ (n : Nat) (s e : Int), (e + 1 - s).toNat = n →
      calcLoop items n s e = (rangeDays s e).flatMap (fun d => dayOccs items d) := by
  intro n
  induction n with
  | zero =>
      intro s e hn
      rw [rangeDays_nil (by omega)]
      rfl
  | succ n ih =>
      intro s e hn
      have hs : s ≤ e := by omega
      rw [calcLoop, if_pos hs, rangeDays_cons hs, List.flatMap_cons,
        ih (s + 1) e (by omega)]

theorem calculate_schedule_eq_flatMap (book : ScheduleBook) (g : String)
    (bucket : List ScheduleTemplateItem) (s e : Int)
    (hfind : idxFind book.group_index g = some bucket) :
    calculate_schedule book g s e
      = (rangeDays s e).flatMap (fun d => dayOccs bucket d) := by
  unfold calculate_schedule
  rw [hfind]
  exact calcLoop_eq_flatMap bucket _ s e rfl

theorem itemMatches_eq_spec {it : ScheduleTemplateItem} (d : Int)
    (hwf : it.dates ≠ some []) : itemMatches it d = specMatchesB it d := by
  unfold itemMatches specMatchesB
  cases hds : it.dates with
  | none =>
      by_cases hg : (it.weekday == pyWeekday d)
          && (it.week_parity.isNone || it.week_parity == some (weekParityOf d)) <;>
        simp [hg]
  | some ds =>
      cases ds with
      | nil => exact absurd hds hwf
      | cons a l =>
          by_cases hg : (it.weekday == pyWeekday d)
              && (it.week_parity.isNone || it.week_parity == some (weekParityOf d)) <;>
            simp [hg, List.isEmpty]

theorem idxFind_indexAdd (idx : List (String × List ScheduleTemplateItem))
    (g q : String) (it : ScheduleTemplateItem) :
    idxFind (indexAdd idx g it) q
      = if q = g then some ((idxFind idx q).getD [] ++ [it]) else idxFind idx q := by
  induction idx with
  | nil =>
      simp only [indexAdd, idxFind]
      by_cases h : q = g
      · subst h; simp
      · rw [if_neg (fun hh => h hh.symm), if_neg h]
  | cons kv rest ih =>
      obtain ⟨k, l⟩ := kv
      simp only [indexAdd]
      by_cases hk : k = g
      · subst hk
        simp only [if_pos rfl, idxFind]
        by_cases hq : k = q
        · subst hq; simp
        · have hqk : ¬ q = k := fun hh => hq hh.symm
          simp [hq, hqk]
      · rw [if_neg hk]
        simp only [idxFind]
        by_cases hq : k = q
        · have hqg : ¬ q = g := fun hh => hk (hq.trans hh)
          simp [hq, hqg]
        · simp [hq, ih]

theorem idxFind_addGroups (it : ScheduleTemplateItem) (q : String) :
    ∀ (gs : List String) (idx : List (String × List ScheduleTemplateItem)),
      gs.Nodup →
      idxFind (gs.foldl (fun i g => indexAdd i g it) idx) q
        = if q ∈ gs then some ((idxFind idx q).getD [] ++ [it]) else idxFind idx q := by
  intro gs
  induction gs with
  | nil => intro idx _; simp
  | cons g gs ih =>
      intro idx hnd
      rw [List.nodup_cons] at hnd
      rw [List.foldl_cons, ih _ hnd.2, idxFind_indexAdd]
      by_cases h1 : q ∈ gs
      · have hqg : ¬ q = g := fun h => hnd.1 (h ▸ h1)
        simp [h1, hqg]
      · by_cases h2 : q = g <;> simp [h1, h2, hnd.1]

theorem idxFind_buildIndex (q : String) :
    ∀ (template : List ScheduleTemplateItem)
      (idx : List (String × List ScheduleTemplateItem)),
      (∀ it ∈ template, it.groups.Nodup) →
      idxFind (buildIndex idx template) q
        = (if (template.filter (fun it => it.groups.contains q)).isEmpty
           then idxFind idx q
           else some ((idxFind idx q).getD []
             ++ template.filter (fun it => it.groups.contains q))) := by
  intro template
  induction template with
  | nil => intro idx _; rfl
  | cons it rest ih =>
      intro idx hnd
      have hit : it.groups.Nodup := hnd it (List.mem_cons_self ..)
      have hrest : ∀ x ∈ rest, x.groups.Nodup :=
        fun x hx => hnd x (List.mem_cons_of_mem _ hx)
      rw [show buildIndex idx (it :: rest) = buildIndex (addItemGroups idx it) rest from rfl,
        ih _ hrest]
      unfold addItemGroups
      rw [idxFind_addGroups it q it.groups idx hit]
      by_cases hg : q ∈ it.groups
      · have hc : it.groups.contains q = true := List.elem_eq_true_of_mem hg
        by_cases he : (rest.filter (fun x => x.groups.contains q)).isEmpty <;>
          · rw [List.isEmpty_iff] at *
            simp [List.filter_cons, hc, hg, he, List.isEmpty_iff]
            try simp [he]
      · have hc : ¬ it.groups.contains q = true := fun h => hg (List.mem_of_elem_eq_true h)
        simp [List.filter_cons, hc, hg]

theorem matchAt_iff : ∀ (p l : List Char), matchAt p l = true ↔ ∃ r, l = p ++ r := by
  intro p
  induction p with
  | nil => intro l; simp [matchAt]
  | cons ph pt ih =>
      intro l
      cases l with
      | nil => simp [matchAt]
      | cons ch ct =>
          simp only [matchAt, Bool.and_eq_true, beq_iff_eq, ih, List.cons_append,
            List.cons.injEq]
          constructor
          · rintro ⟨rfl, r, rfl⟩
            exact ⟨r, rfl, rfl⟩
          · rintro ⟨r, rfl, rfl⟩
            exact ⟨rfl, r, rfl⟩

theorem regexSearchCI_iff (pat s : String) :
    regexSearchCI pat s = true
      ↔ ∃ l r, (pyLower s).toList = l ++ (pyLower pat).toList ++ r := by
  unfold regexSearchCI
  simp only [List.any_eq_true, List.mem_range, matchAt_iff]
  constructor
  · rintro ⟨i, _, r, hdrop⟩
    refine ⟨(pyLower s).toList.take i, r, ?_⟩
    conv_lhs => rw [← List.take_append_drop i (pyLower s).toList]
    rw [hdrop, List.append_assoc]
  · rintro ⟨l, r, hl⟩
    refine ⟨l.length, ?_, r, ?_⟩
    · have hlen := congrArg List.length hl
      rw [List.length_append, List.length_append] at hlen
      omega
    · rw [hl, List.append_assoc, List.drop_left]

theorem itemMatches_clearEmptyDates (it : ScheduleTemplateItem) (d : Int) :
    itemMatches (clearEmptyDates it) d = itemMatches it d := by
  unfold clearEmptyDates
  by_cases h : it.dates = some []
  · rw [if_pos h]
    unfold itemMatches
    rw [h]
    rfl
  · rw [if_neg h]

theorem mkScheduleItem_clearEmptyDates (it : ScheduleTemplateItem) (d : Int) :
    mkScheduleItem (clearEmptyDates it) d = mkScheduleItem it d := by
  unfold clearEmptyDates
  by_cases h : it.dates = some []
  · rw [if_pos h]; rfl
  · rw [if_neg h]

theorem dayOccs_clearEmptyDates (items : List ScheduleTemplateItem) (d : Int) :
    dayOccs (items.map clearEmptyDates) d = dayOccs items d := by
  induction items with
  | nil => rfl
  | cons it rest ih =>
      have hre : dayOccs (rest.map clearEmptyDates) d = dayOccs rest d := ih
      unfold dayOccs at hre ⊢
      simp only [List.map_cons, List.filter_cons, itemMatches_clearEmptyDates]
      by_cases h : itemMatches it d
      · simp [h, mkScheduleItem_clearEmptyDates, hre]
      · simp [h, hre]

theorem calcLoop_clearEmptyDates (items : List ScheduleTemplateItem) :
    ∀ (n : Nat) (s e : Int),
      calcLoop (items.map clearEmptyDates) n s e = calcLoop items n s e := by
  intro n
  induction n with
  | zero => intro s e; rfl
  | succ n ih =>
      intro s e
      unfold calcLoop
      by_cases h : s ≤ e
      · rw [if_pos h, if_pos h, dayOccs_clearEmptyDates, ih]
      · rw [if_neg h, if_neg h]

theorem idxFind_mapBookItems (f : ScheduleTemplateItem → ScheduleTemplateItem)
    (idx : List (String × List ScheduleTemplateItem)) (q : String) :
    idxFind (idx.map (fun kv => (kv.1, kv.2.map f))) q
      = (idxFind idx q).map (List.map f) := by
  induction idx with
  | nil => rfl
  | cons kv rest ih =>
      obtain ⟨k, l⟩ := kv
      simp only [List.map_cons, idxFind]
      by_cases h : k = q
      · rw [if_pos h, if_pos h]
        rfl
      · rw [if_neg h, if_neg h, ih]

/-!
Claim theorems.
-/

/-- C1: for a group present in the index, `calculate_schedule` lists,
for every date `d` of the inclusive range in ascending order, exactly
the occurrences of the bucket items satisfying the spec's three
conditions (`specMatchesB`): weekday match, parity `None`-or-match,
and `dates` absent-or-containing `d`.  The hypothesis `hwf` is the
spec's data-model invariant that `dates`, when present, is a
non-empty list (the `dates = some []` corner is the subject of C9). -/
theorem claim_C1 (book : ScheduleBook) (g : String)
    (bucket : List ScheduleTemplateItem) (s e : Int)
    (hfind : idxFind book.group_index g = some bucket)
    (hwf : ∀ it ∈ bucket, it.dates ≠ some []) :
    calculate_schedule book g s e
      = (rangeDays s e).flatMap
          (fun d => (bucket.filter (fun it => specMatchesB it d)).map
            (fun it => mkScheduleItem it d)) := by
  rw [calculate_schedule_eq_flatMap book g bucket s e hfind]
  have hfun : (fun d => dayOccs bucket d)
      = (fun d => (bucket.filter (fun it => specMatchesB it d)).map
          (fun it => mkScheduleItem it d)) := by
    funext d
    unfold dayOccs
    rw [List.filter_congr (fun it hit => itemMatches_eq_spec d (hwf it hit))]
  rw [hfun]

theorem claim_C1_witness :
    calculate_schedule bookT "GroupA" (ymd2ord 2024 10 7) (ymd2ord 2024 10 11)
      = (rangeDays (ymd2ord 2024 10 7) (ymd2ord 2024 10 11)).flatMap
          (fun d => (([tMath, tPhysics].filter (fun it => specMatchesB it d)).map
            (fun it => mkScheduleItem it d))) :=
  claim_C1 bookT "GroupA" [tMath, tPhysics] (ymd2ord 2024 10 7) (ymd2ord 2024 10 11)
    (by decide) (by decide)

/-- C2: every returned `ScheduleItem` has `start` equal to the matched
calendar date combined with its template item's start time-of-day and
`end` equal to that start plus exactly 90 minutes. -/
theorem claim_C2 (book : ScheduleBook) (g : String) (s e : Int) (si : ScheduleItem)
    (hmem : si ∈ calculate_schedule book g s e) :
    si.end_ = si.start + 90
    ∧ ∃ bucket d it, idxFind book.group_index g = some bucket ∧ it ∈ bucket
        ∧ s ≤ d ∧ d ≤ e
        ∧ si.start = datetimeCombine d it.start
        ∧ si.end_ = datetimeCombine d it.start + 90 := by
  cases hfind : idxFind book.group_index g with
  | none =>
      unfold calculate_schedule at hmem
      rw [hfind] at hmem
      exact absurd hmem (List.not_mem_nil si)
  | some bucket =>
      rw [calculate_schedule_eq_flatMap book g bucket s e hfind] at hmem
      rw [List.mem_flatMap] at hmem
      obtain ⟨d, hd, hsi⟩ := hmem
      unfold dayOccs at hsi
      rw [List.mem_map] at hsi
      obtain ⟨it, hit, rfl⟩ := hsi
      rw [List.mem_filter] at hit
      have hd2 := mem_rangeDays.mp hd
      exact ⟨rfl, bucket, d, it, rfl, hit.1, hd2.1, hd2.2, rfl, rfl⟩

theorem claim_C2_witness :
    (mkScheduleItem tMath (ymd2ord 2024 10 7)).end_
        = (mkScheduleItem tMath (ymd2ord 2024 10 7)).start + 90
    ∧ ∃ bucket d it, idxFind bookT.group_index "GroupA" = some bucket ∧ it ∈ bucket
        ∧ ymd2ord 2024 10 7 ≤ d ∧ d ≤ ymd2ord 2024 10 11
        ∧ (mkScheduleItem tMath (ymd2ord 2024 10 7)).start = datetimeCombine d it.start
        ∧ (mkScheduleItem tMath (ymd2ord 2024 10 7)).end_ = datetimeCombine d it.start + 90 :=
  claim_C2 bookT "GroupA" (ymd2ord 2024 10 7) (ymd2ord 2024 10 11)
    (mkScheduleItem tMath (ymd2ord 2024 10 7)) (by decide)

/-- C3: `get_date_range` returns `(anchor, anchor)` for TODAY, the
single previous/next day for YESTERDAY/TOMORROW, the Monday-start week
of the anchor for CURRENT_WEEK, and the 7-day Monday-start windows
immediately before/after it for LAST_WEEK/NEXT_WEEK; concretely at
anchor 2024-10-03 the three week requests give 2024-09-30..2024-10-06,
2024-09-23..2024-09-29 and 2024-10-07..2024-10-13. -/
theorem claim_C3 :
    (∀ t : Int,
      get_date_range .TODAY t = (t, t)
      ∧ get_date_range .YESTERDAY t = (t - 1, t - 1)
      ∧ get_date_range .TOMORROW t = (t + 1, t + 1)
      ∧ get_date_range .CURRENT_WEEK t = (t - pyWeekday t, t - pyWeekday t + 6)
      ∧ get_date_range .LAST_WEEK t = (t - pyWeekday t - 7, t - pyWeekday t - 1)
      ∧ get_date_range .NEXT_WEEK t = (t - pyWeekday t + 7, t - pyWeekday t + 13))
    ∧ get_date_range .CURRENT_WEEK (ymd2ord 2024 10 3)
        = (ymd2ord 2024 9 30, ymd2ord 2024 10 6)
    ∧ get_date_range .LAST_WEEK (ymd2ord 2024 10 3)
        = (ymd2ord 2024 9 23, ymd2ord 2024 9 29)
    ∧ get_date_range .NEXT_WEEK (ymd2ord 2024 10 3)
        = (ymd2ord 2024 10 7, ymd2ord 2024 10 13) := by
  refine ⟨fun t => ⟨rfl, rfl, rfl, rfl, ?_, ?_⟩, by decide, by decide, by decide⟩
  · simp only [get_date_range, Prod.mk.injEq]
    omega
  · simp only [get_date_range, Prod.mk.injEq]
    omega

/-- C4: `calculate_schedule` returns the empty list (and cannot fail)
both when the group is not a key of the index and when
`start > end`. -/
theorem claim_C4 (book : ScheduleBook) (g : String) (s e : Int) :
    (idxFind book.group_index g = none → calculate_schedule book g s e = [])
    ∧ (e < s → calculate_schedule book g s e = []) := by
  constructor
  · intro h
    unfold calculate_schedule
    rw [h]
  · intro h
    unfold calculate_schedule
    cases hfind : idxFind book.group_index g with
    | none => rfl
    | some items =>
        have h0 : (e + 1 - s).toNat = 0 := by omega
        rw [h0]
        rfl

theorem claim_C4_witness :
    calculate_schedule bookT "GroupC" (ymd2ord 2024 10 7) (ymd2ord 2024 10 11) = []
    ∧ calculate_schedule bookT "GroupA" (ymd2ord 2024 10 11) (ymd2ord 2024 10 7) = [] :=
  ⟨(claim_C4 bookT "GroupC" (ymd2ord 2024 10 7) (ymd2ord 2024 10 11)).1 (by decide),
   (claim_C4 bookT "GroupA" (ymd2ord 2024 10 11) (ymd2ord 2024 10 7)).2 (by decide)⟩

/-- C5: `find_groups` returns exactly the indexed group names that
contain the pattern as a case-insensitive literal substring (the
pattern is `re.escape`d, so its characters are matched literally);
membership in the result is equivalent to being an index key whose
lowercased text decomposes around the lowercased pattern.  When no key
qualifies, the filter yields the empty list; the function is total. -/
theorem claim_C5 (book : ScheduleBook) (pattern g : String) :
    g ∈ find_groups book pattern
      ↔ g ∈ book.group_index.map Prod.fst
        ∧ ∃ l r, (pyLower g).toList = l ++ (pyLower pattern).toList ++ r := by
  unfold find_groups
  rw [List.mem_filter, regexSearchCI_iff]

/-- C6: the schedule is the concatenation, over the strictly
increasing list of days of the range, of the day's occurrences taken
in bucket order, where the bucket is the subsequence of the loaded
template items naming the group (insertion order preserved); and on a
concrete two-item book the same-day output keeps load order even
though it is decreasing in both slot and start time, so the layer does
not sort by slot or time. -/
theorem claim_C6 (template : List ScheduleTemplateItem) (g : String)
    (bucket : List ScheduleTemplateItem) (s e : Int)
    (hnd : ∀ it ∈ template, it.groups.Nodup)
    (hfind : idxFind (add_template emptyBook template).group_index g = some bucket) :
    bucket = template.filter (fun it => it.groups.contains g)
    ∧ calculate_schedule (add_template emptyBook template) g s e
        = (rangeDays s e).flatMap
            (fun d => (bucket.filter (fun it => itemMatches it d)).map
              (fun it => mkScheduleItem it d))
    ∧ (rangeDays s e).Pairwise (· < ·)
    ∧ (calculate_schedule bookC6 "G" (ymd2ord 2024 10 7) (ymd2ord 2024 10 7)
          = [mkScheduleItem tLate (ymd2ord 2024 10 7),
             mkScheduleItem tEarly (ymd2ord 2024 10 7)]
        ∧ (mkScheduleItem tEarly (ymd2ord 2024 10 7)).start
            < (mkScheduleItem tLate (ymd2ord 2024 10 7)).start
        ∧ tEarly.slot < tLate.slot) := by
  have hfind0 := hfind
  rw [show (add_template emptyBook template).group_index = buildIndex [] template from rfl,
    idxFind_buildIndex g template [] hnd] at hfind
  have hb : bucket = template.filter (fun it => it.groups.contains g) := by
    by_cases he : (template.filter (fun it => it.groups.contains g)).isEmpty
    · rw [if_pos he] at hfind
      exact Option.noConfusion hfind
    · rw [if_neg he] at hfind
      simp only [idxFind, Option.getD_none, List.nil_append] at hfind
      exact (Option.some.inj hfind).symm
  refine ⟨hb, ?_, pairwise_lt_rangeDays s e, by decide, by decide, by decide⟩
  exact calculate_schedule_eq_flatMap _ g bucket s e hfind0

/-- C7: a request value outside the six-member enumeration reaches the
`raise ValueError` fall-through, and each of the six members returns
normally with the corresponding range. -/
theorem claim_C7 :
    (∀ t : Int, get_date_range_any none t = .error "Unknown schedule request")
    ∧ (∀ (r : DateRangeRequest) (t : Int),
        get_date_range_any (some r) t = .ok (get_date_range r t)) := by
  refine ⟨fun t => rfl, fun r t => ?_⟩
  cases r <;> rfl

/-- C8: on a string, `parse_weekday` is determined by the lowercased,
first-token, quote-stripped normalisation and maps each of the seven
localized weekday names to its number; on an integer it returns the
integer modulo 7, which lies in 0..6 for every integer including
negatives; on any other type it raises a `TypeError`-equivalent. -/
theorem claim_C8 :
    (∀ s : String, parse_weekday (.str s) = .ok (weekdayByName (normalizeWeekday s)))
    ∧ (∀ p ∈ UA_WEEKDAYS, parse_weekday (.str p.1) = .ok p.2)
    ∧ (∀ n : Int, parse_weekday (.int n) = .ok (n % 7) ∧ 0 ≤ n % 7 ∧ n % 7 < 7)
    ∧ parse_weekday .other = .error "unsupported weekday" := by
  refine ⟨fun s => rfl, by decide,
    fun n => ⟨rfl, Int.emod_nonneg n (by decide), Int.emod_lt_of_pos n (by decide)⟩, rfl⟩

theorem claim_C8_witness : parse_weekday (.str "пятниця") = .ok 4 :=
  claim_C8.2.1 ("пятниця", 4) (by decide)

/-- C9: an item whose `dates` is the empty list is treated by
`calculate_schedule` exactly as an item without `dates`: rewriting
every such item of a book to `dates = None` never changes any query
result (the membership guard fires only on a truthy, i.e. non-empty,
list). -/
theorem claim_C9 (book : ScheduleBook) (g : String) (s e : Int) :
    calculate_schedule (mapBookItems clearEmptyDates book) g s e
      = calculate_schedule book g s e := by
  unfold calculate_schedule
  unfold mapBookItems
  rw [idxFind_mapBookItems clearEmptyDates book.group_index g]
  cases hfind : idxFind book.group_index g with
  | none => rfl
  | some bucket =>
      simp only [Option.map_some]
      exact calcLoop_clearEmptyDates bucket _ s e

/-- C10: a string whose normalised first token is not one of the seven
weekday names makes `parse_weekday` silently return 0 (Monday), not
raise. -/
theorem claim_C10 (s : String)
    (h : normalizeWeekday s ∉ UA_WEEKDAYS.map Prod.fst) :
    parse_weekday (.str s) = .ok 0 := by
  show Except.ok (weekdayByName (normalizeWeekday s)) = .ok 0
  unfold weekdayByName
  rw [List.find?_eq_none.mpr]
  · rfl
  · intro p hp
    simp only [beq_iff_eq]
    intro hpe
    apply h
    rw [← hpe]
    exact List.mem_map_of_mem Prod.fst hp

theorem claim_C10_witness : parse_weekday (.str "monday") = .ok 0 :=
  claim_C10 "monday" (by decide)

theorem claim_C6_witness :
    [tMath, tChemistry]
        = [tMath, tPhysics, tChemistry].filter (fun it => it.groups.contains "GroupB")
    ∧ calculate_schedule (add_template emptyBook [tMath, tPhysics, tChemistry]) "GroupB"
          (ymd2ord 2024 10 7) (ymd2ord 2024 10 11)
        = (rangeDays (ymd2ord 2024 10 7) (ymd2ord 2024 10 11)).flatMap
            (fun d => (([tMath, tChemistry].filter (fun it => itemMatches it d)).map
              (fun it => mkScheduleItem it d)))
    ∧ (rangeDays (ymd2ord 2024 10 7) (ymd2ord 2024 10 11)).Pairwise (· < ·)
    ∧ (calculate_schedule bookC6 "G" (ymd2ord 2024 10 7) (ymd2ord 2024 10 7)
          = [mkScheduleItem tLate (ymd2ord 2024 10 7),
             mkScheduleItem tEarly (ymd2ord 2024 10 7)]
        ∧ (mkScheduleItem tEarly (ymd2ord 2024 10 7)).start
            < (mkScheduleItem tLate (ymd2ord 2024 10 7)).start
        ∧ tEarly.slot < tLate.slot) :=
  claim_C6 [tMath, tPhysics, tChemistry] "GroupB" [tMath, tChemistry]
    (ymd2ord 2024 10 7) (ymd2ord 2024 10 11) (by decide) (by decide)
